import Mathlib

/-!
Verification of the WebSocket chat-server platform host
(`src/platform/src/lib.rs`).

The Rust source is shallowly embedded.  Byte streams become `List Nat`
(each element one byte value), machine integers become `Nat` with an
explicit `% 256 ^ k` reduction where a truncating cast occurs, fallible
stream reads become functions into `Except String`, and the shared
connection table (`HashMap<u64, WebSocketClient>` behind a mutex) becomes
an association list threaded explicitly through each operation.
-/

namespace ChatServer

/-- Big-endian byte list of `n`, `k` bytes long.  Models `to_be_bytes` of a
`k`-byte unsigned integer; the value is implicitly reduced mod `256 ^ k`,
exactly as the Rust `as u16` / `as u64` cast truncates. -/
def beBytes : Nat → Nat → List Nat
  | 0, _ => []
  | k + 1, n => beBytes k (n / 256) ++ [n % 256]

/-- Big-endian value of a byte list.  Models `u16::from_be_bytes` and
`u64::from_be_bytes`. -/
def beVal (bs : List Nat) : Nat := bs.foldl (fun a b => a * 256 + b) 0

/-- XOR a byte list against the 4-byte mask key, byte `i` against
`mask[i % 4]`.  Models the unmasking loop
`for (i, byte) in payload.iter_mut().enumerate() { *byte ^= mask[i % 4]; }`
of `try_read_websocket_frame` (and, applied by a client, the symmetric
masking operation). -/
def xorMask (mask : List Nat) : Nat → List Nat → List Nat
  | _, [] => []
  | i, b :: rest => (b ^^^ mask.getD (i % 4) 0) :: xorMask mask (i + 1) rest

/-- Models `Read::read_exact` on a byte stream that currently holds `s`:
consumes exactly `n` bytes, failing (as the source maps any such failure,
`format!("Read error: {}", e)`) when fewer are available. -/
def readExact (n : Nat) (s : List Nat) : Except String (List Nat × List Nat) :=
  if n ≤ s.length then .ok (s.take n, s.drop n) else .error "Read error"

/-- The bytes `WebSocketServer::send_frame` writes to the stream for a
given opcode value and payload: FIN bit plus opcode, then the three-tier
length field, then the raw (unmasked) payload. -/
def sendFrameBytes (opcode : Nat) (payload : List Nat) : List Nat :=
  let header :=
    if payload.length < 126 then
      [0x80 ||| opcode, payload.length]
    else if payload.length ≤ 65535 then
      [0x80 ||| opcode, 126] ++ beBytes 2 payload.length
    else
      [0x80 ||| opcode, 127] ++ beBytes 8 payload.length
  header ++ payload

/-- Client-side masking of an already-encoded frame, as described by the
round-trip property: set the mask bit in the second header byte, insert the
4-byte mask key after the (possibly extended) length field, and XOR-mask
the payload bytes.  This is the client behaviour the round-trip claim
prescribes; it is not code of the server itself. -/
def maskFrame (mask : List Nat) (f : List Nat) : List Nat :=
  match f with
  | b0 :: b1 :: rest =>
    let extLen := if b1 = 126 then 2 else if b1 = 127 then 8 else 0
    b0 :: (0x80 ||| b1) ::
      (rest.take extLen ++ mask ++ xorMask mask 0 (rest.drop extLen))
  | other => other

/-- Is `b` a UTF-8 continuation byte (`0x80–0xBF`)? -/
def isCont (b : Nat) : Bool := 0x80 ≤ b && b ≤ 0xBF

/-- Worker for `utf8Lossy`; the fuel argument only forces termination and
is always at least the list length at every call. -/
def utf8LossyAux : Nat → List Nat → List Nat
  | 0, _ => []
  | _, [] => []
  | fuel + 1, b :: rest =>
    if b ≤ 0x7F then b :: utf8LossyAux fuel rest
    else if 0xC2 ≤ b && b ≤ 0xDF then
      match rest with
      | [] => [0xEF, 0xBF, 0xBD]
      | b1 :: rest1 =>
        if isCont b1 then b :: b1 :: utf8LossyAux fuel rest1
        else 0xEF :: 0xBF :: 0xBD :: utf8LossyAux fuel rest
    else if 0xE0 ≤ b && b ≤ 0xEF then
      match rest with
      | [] => [0xEF, 0xBF, 0xBD]
      | b1 :: rest1 =>
        if (b = 0xE0 && 0xA0 ≤ b1 && b1 ≤ 0xBF) ||
           (b = 0xED && 0x80 ≤ b1 && b1 ≤ 0x9F) ||
           (b ≠ 0xE0 && b ≠ 0xED && isCont b1) then
          match rest1 with
          | [] => [0xEF, 0xBF, 0xBD]
          | b2 :: rest2 =>
            if isCont b2 then b :: b1 :: b2 :: utf8LossyAux fuel rest2
            else 0xEF :: 0xBF :: 0xBD :: utf8LossyAux fuel rest1
        else 0xEF :: 0xBF :: 0xBD :: utf8LossyAux fuel rest
    else if 0xF0 ≤ b && b ≤ 0xF4 then
      match rest with
      | [] => [0xEF, 0xBF, 0xBD]
      | b1 :: rest1 =>
        if (b = 0xF0 && 0x90 ≤ b1 && b1 ≤ 0xBF) ||
           (b = 0xF4 && 0x80 ≤ b1 && b1 ≤ 0x8F) ||
           (b ≠ 0xF0 && b ≠ 0xF4 && isCont b1) then
          match rest1 with
          | [] => [0xEF, 0xBF, 0xBD]
          | b2 :: rest2 =>
            if isCont b2 then
              match rest2 with
              | [] => [0xEF, 0xBF, 0xBD]
              | b3 :: rest3 =>
                if isCont b3 then b :: b1 :: b2 :: b3 :: utf8LossyAux fuel rest3
                else 0xEF :: 0xBF :: 0xBD :: utf8LossyAux fuel rest2
            else 0xEF :: 0xBF :: 0xBD :: utf8LossyAux fuel rest1
        else 0xEF :: 0xBF :: 0xBD :: utf8LossyAux fuel rest
    else 0xEF :: 0xBF :: 0xBD :: utf8LossyAux fuel rest

/-- Models `String::from_utf8_lossy` at the byte level: valid UTF-8
sequences are copied through unchanged, and each maximal prefix of an
invalid sequence is replaced by the UTF-8 bytes `EF BF BD` of U+FFFD.
The result is the UTF-8 byte sequence of the resulting string. -/
def utf8Lossy (l : List Nat) : List Nat := utf8LossyAux l.length l

/-- The decoded-frame type of the source (`enum WebSocketFrame`): text
frames carry the lossily UTF-8-decoded string (represented by its UTF-8
bytes), close frames carry nothing, ping and pong carry their raw
payload. -/
inductive WebSocketFrame where
  | text (t : List Nat)
  | close
  | ping (p : List Nat)
  | pong (p : List Nat)
deriving DecidableEq, Repr

deriving instance DecidableEq for Except

/-- Models `WebSocketServer::try_read_websocket_frame` on a stream whose
currently available bytes are `s`.  A blocked 2-byte header read returns
`Ok none` (the `WouldBlock → Ok(None)` arm); every later short read is a
read error; the mask is always read; a declared payload length above
65536 is rejected after the mask read; the payload is unmasked byte-wise;
opcodes other than text/close/ping/pong are rejected. -/
def tryReadWebsocketFrame (s : List Nat) : Except String (Option WebSocketFrame) :=
  match readExact 2 s with
  | .error _ => .ok none
  | .ok (hdr, s1) =>
    let opcode := hdr.getD 0 0 &&& 0x0F
    let len0 := hdr.getD 1 0 &&& 0x7F
    let lenRead : Except String (Nat × List Nat) :=
      if len0 = 126 then
        match readExact 2 s1 with
        | .error e => .error e
        | .ok (lb, s2) => .ok (beVal lb, s2)
      else if len0 = 127 then
        match readExact 8 s1 with
        | .error e => .error e
        | .ok (lb, s2) => .ok (beVal lb, s2)
      else .ok (len0, s1)
    match lenRead with
    | .error e => .error e
    | .ok (payloadLen, s2) =>
      match readExact 4 s2 with
      | .error e => .error e
      | .ok (mask, s3) =>
        if payloadLen > 65536 then .error "Payload too large"
        else
          match readExact payloadLen s3 with
          | .error e => .error e
          | .ok (masked, _) =>
            let payload := xorMask mask 0 masked
            match opcode with
            | 0x1 => .ok (some (.text (utf8Lossy payload)))
            | 0x8 => .ok (some .close)
            | 0x9 => .ok (some (.ping payload))
            | 0xA => .ok (some (.pong payload))
            | _ => .error "Unsupported opcode"

/-- What the decoder yields for one of the four supported opcode values and
a given raw payload: text frames go through the lossy UTF-8 decoding, close
frames drop the payload, ping and pong keep it. -/
def frameOfOpcode (op : Nat) (p : List Nat) : WebSocketFrame :=
  if op = 1 then .text (utf8Lossy p)
  else if op = 8 then .close
  else if op = 9 then .ping p
  else .pong p

/-- Rotate a 32-bit word left by `n` bits (SHA-1 helper). -/
def rotl32 (n x : Nat) : Nat := ((x <<< n) ||| (x >>> (32 - n))) % 4294967296

/-- The SHA-1 round function for round `i`. -/
def sha1F (i b c d : Nat) : Nat :=
  if i < 20 then (b &&& c) ||| ((4294967295 ^^^ b) &&& d)
  else if i < 40 then b ^^^ c ^^^ d
  else if i < 60 then (b &&& c) ||| (b &&& d) ||| (c &&& d)
  else b ^^^ c ^^^ d

/-- The SHA-1 round constant for round `i`. -/
def sha1K (i : Nat) : Nat :=
  if i < 20 then 0x5A827999
  else if i < 40 then 0x6ED9EBA1
  else if i < 60 then 0x8F1BBCDC
  else 0xCA62C1D6

/-- Group a byte list into big-endian 32-bit words. -/
def toWords32 : List Nat → List Nat
  | b0 :: b1 :: b2 :: b3 :: rest =>
    (((b0 * 256 + b1) * 256 + b2) * 256 + b3) :: toWords32 rest
  | _ => []

/-- Extend the (reversed) word list by `k` further SHA-1 schedule words,
newest first. -/
def sha1Extend : Nat → List Nat → List Nat
  | 0, acc => acc
  | k + 1, acc =>
    let w := rotl32 1 (acc.getD 2 0 ^^^ acc.getD 7 0 ^^^ acc.getD 13 0 ^^^ acc.getD 15 0)
    sha1Extend k (w :: acc)

/-- The 80-word SHA-1 message schedule of one 16-word block. -/
def sha1Schedule (ws : List Nat) : List Nat := (sha1Extend 64 ws.reverse).reverse

/-- Run the 80 SHA-1 rounds over the indexed schedule. -/
def sha1Rounds : List (Nat × Nat) → Nat × Nat × Nat × Nat × Nat → Nat × Nat × Nat × Nat × Nat
  | [], st => st
  | (i, w) :: rest, (a, b, c, d, e) =>
    let t := (rotl32 5 a + sha1F i b c d + e + sha1K i + w) % 4294967296
    sha1Rounds rest (t, a, rotl32 30 b, c, d)

/-- Add two SHA-1 states component-wise mod 2^32. -/
def sha1Add : Nat × Nat × Nat × Nat × Nat → Nat × Nat × Nat × Nat × Nat →
    Nat × Nat × Nat × Nat × Nat
  | (h0, h1, h2, h3, h4), (a, b, c, d, e) =>
    ((h0 + a) % 4294967296, (h1 + b) % 4294967296, (h2 + c) % 4294967296,
      (h3 + d) % 4294967296, (h4 + e) % 4294967296)

/-- Compress one 64-byte block into the running SHA-1 state. -/
def sha1ProcessBlock (h : Nat × Nat × Nat × Nat × Nat) (block : List Nat) :
    Nat × Nat × Nat × Nat × Nat :=
  sha1Add h (sha1Rounds ((List.range 80).zip (sha1Schedule (toWords32 block))) h)

/-- Fold the SHA-1 compression over every 64-byte block; the fuel
argument only forces termination and is at least the number of blocks at
every call. -/
def sha1Blocks : Nat → List Nat → Nat × Nat × Nat × Nat × Nat → Nat × Nat × Nat × Nat × Nat
  | 0, _, h => h
  | _, [], h => h
  | fuel + 1, b :: rest, h =>
    sha1Blocks fuel ((b :: rest).drop 64) (sha1ProcessBlock h ((b :: rest).take 64))

/-- SHA-1 padding: a `0x80` byte, zeros to 56 mod 64, then the bit length
as a big-endian 64-bit integer. -/
def sha1Pad (msg : List Nat) : List Nat :=
  msg ++ [0x80] ++ List.replicate ((119 - msg.length % 64) % 64) 0 ++
    beBytes 8 (msg.length * 8)

/-- Serialise the final SHA-1 state as the 20-byte big-endian digest. -/
def sha1Out : Nat × Nat × Nat × Nat × Nat → List Nat
  | (h0, h1, h2, h3, h4) =>
    beBytes 4 h0 ++ beBytes 4 h1 ++ beBytes 4 h2 ++ beBytes 4 h3 ++ beBytes 4 h4

/-- SHA-1 of a byte message, as its 20-byte digest.  Models the
`sha1::Sha1` hasher used by `handle_websocket_upgrade`. -/
def sha1 (msg : List Nat) : List Nat :=
  sha1Out (sha1Blocks (sha1Pad msg).length (sha1Pad msg)
    (0x67452301, 0xEFCDAB89, 0x98BADCFE, 0x10325476, 0xC3D2E1F0))

/-- The bytes of a string (all strings involved are ASCII, where the
character code is the UTF-8 byte). -/
def strBytes (s : String) : List Nat := s.data.map Char.toNat

/-- The standard base64 alphabet. -/
def b64Table : List Nat :=
  strBytes "ABCDEFGHIJKLMNOPQRSTUVWXYZabcdefghijklmnopqrstuvwxyz0123456789+/"

/-- The base64 character for a 6-bit group. -/
def b64Char (n : Nat) : Nat := b64Table.getD n 65

/-- Standard base64 encoding with `=` padding.  Models
`base64::engine::general_purpose::STANDARD.encode`. -/
def base64Encode : List Nat → List Nat
  | a :: b :: c :: rest =>
    let n := (a * 256 + b) * 256 + c
    b64Char (n / 262144) :: b64Char (n / 4096 % 64) :: b64Char (n / 64 % 64) ::
      b64Char (n % 64) :: base64Encode rest
  | [a, b] =>
    let n := (a * 256 + b) * 256
    [b64Char (n / 262144), b64Char (n / 4096 % 64), b64Char (n / 64 % 64), 61]
  | [a] =>
    let n := a * 65536
    [b64Char (n / 262144), b64Char (n / 4096 % 64), 61, 61]
  | [] => []

/-- The fixed WebSocket GUID appended to the key before hashing. -/
def wsMagic : List Nat := strBytes "258EAFA5-E914-47DA-95CA-C5AB0DC85B11"

/-- The `Sec-WebSocket-Accept` computation of `handle_websocket_upgrade`:
the hasher is updated with the key bytes then the magic bytes (one hash of
the concatenation), and the digest is base64-encoded. -/
def computeAcceptKey (key : List Nat) : List Nat :=
  base64Encode (sha1 (key ++ wsMagic))

/-- Index of the first occurrence of `pat` in a byte list (models
`str::find`). -/
def findSub (pat : List Nat) : List Nat → Option Nat
  | [] => if pat.isPrefixOf [] then some 0 else none
  | b :: rest =>
    if pat.isPrefixOf (b :: rest) then some 0
    else (findSub pat rest).map (fun i => i + 1)

/-- The literal `101 Switching Protocols` response built around a computed
accept key. -/
def upgradeResponse (acceptKey : List Nat) : List Nat :=
  strBytes "HTTP/1.1 101 Switching Protocols\r\nUpgrade: websocket\r\nConnection: Upgrade\r\nSec-WebSocket-Accept: " ++
    acceptKey ++ strBytes "\r\n\r\n"

/-- Models `WebSocketServer::handle_websocket_upgrade`: extract the
`Sec-WebSocket-Key` header value (text between the header name and the
next CRLF), compute the accept key, and produce the written response
bytes. -/
def handleWebsocketUpgrade (request : List Nat) : Except String (List Nat) :=
  let keyHeader := strBytes "Sec-WebSocket-Key: "
  match findSub keyHeader request with
  | none => .error "No Sec-WebSocket-Key found"
  | some keyStart =>
    let keyValueStart := keyStart + keyHeader.length
    let afterKey := request.drop keyValueStart
    match findSub (strBytes "\r\n") afterKey with
    | none => .error "Invalid key format"
    | some keyEnd => .ok (upgradeResponse (computeAcceptKey (afterKey.take keyEnd)))

/-- A concrete upgrade request carrying the RFC 6455 sample key. -/
def sampleUpgradeRequest : List Nat :=
  strBytes "GET /chat HTTP/1.1\r\nHost: example.com\r\nUpgrade: websocket\r\nConnection: Upgrade\r\nSec-WebSocket-Key: dGhlIHNhbXBsZSBub25jZQ==\r\n\r\n"

/-- Per-connection state as tracked by the source's `WebSocketClient`
(`id` lives as the registry key, the `TcpStream` is left abstract), plus
the one environment fact the claims need about the socket: whether writes
to it currently fail (`write_all` returning an error). -/
structure WebSocketClient where
  is_websocket : Bool
  is_closed : Bool
  writeFails : Bool
deriving DecidableEq, Repr

/-- The connection table `HashMap<u64, WebSocketClient>`, modelled as an
association list with (per the HashMap invariant) pairwise distinct
keys. -/
abbrev Registry := List (Nat × WebSocketClient)

/-- Models `clients.get(&client_id)`. -/
def lookupClient (clients : Registry) (client_id : Nat) : Option WebSocketClient :=
  (clients.find? (fun p => p.1 == client_id)).map (fun p => p.2)

/-- Models `WebSocketServer::send`: `NotFound` when the id is absent,
`ConnectionClosed` when the client is marked closed, otherwise a Text
frame write whose failure is surfaced to the caller.  The registry is
returned alongside to make explicit that no branch mutates it; the third
component lists the frames written. -/
def send (clients : Registry) (client_id : Nat) (message : List Nat) :
    Except String Unit × Registry × List (List Nat) :=
  match lookupClient clients client_id with
  | none => (.error "Client not found", clients, [])
  | some c =>
    if c.is_closed then (.error "Connection closed", clients, [])
    else if c.writeFails then (.error "Write error", clients, [])
    else (.ok (), clients, [sendFrameBytes 1 message])

/-- Models `WebSocketServer::close_client`: if the id is present its
entry is removed (HashMap::remove, i.e. every association with that key
under the distinct-keys invariant) and a best-effort Close frame is
written; an absent id is a silent no-op.  No error can be surfaced. -/
def close_client (clients : Registry) (client_id : Nat) :
    Registry × List (List Nat) :=
  match lookupClient clients client_id with
  | some _ => (clients.filter (fun p => p.1 != client_id), [sendFrameBytes 8 []])
  | none => (clients, [])

/-- The ids whose sweep write fails during `broadcast`: exactly the
registered, open, websocket connections whose socket write fails. -/
def broadcastFailedIds (clients : Registry) : List Nat :=
  clients.filterMap (fun p =>
    if p.2.is_websocket && !p.2.is_closed && p.2.writeFails then some p.1 else none)

/-- The Text-frame writes `broadcast` attempts, in registry order: one to
every registered, open, websocket connection. -/
def broadcastWrites (clients : Registry) (message : List Nat) :
    List (Nat × List Nat) :=
  clients.filterMap (fun p =>
    if p.2.is_websocket && !p.2.is_closed then some (p.1, sendFrameBytes 1 message)
    else none)

/-- Models `WebSocketServer::broadcast`: attempt a Text-frame write to
every registered open websocket connection, then (after the sweep) close
each failed connection via `close_client`; the overall result is always
`Ok`. -/
def broadcast (clients : Registry) (message : List Nat) :
    Except String Unit × Registry × List (Nat × List Nat) :=
  (.ok (),
   (broadcastFailedIds clients).foldl
     (fun cs client_id => (close_client cs client_id).1) clients,
   broadcastWrites clients message)

/-- The event variants of the source's `WebSocketEvent` (message text as
its UTF-8 bytes). -/
inductive WebSocketEvent where
  | connected (client_id : Nat)
  | disconnected (client_id : Nat)
  | message (client_id : Nat) (text : List Nat)
  | error (msg : List Nat)
  | shutdown
deriving DecidableEq, Repr

/-- The per-client outcome of one pass of the polling loop: the updated
client, whether the id was pushed onto `to_remove`, the events enqueued,
and the frames written outward. -/
structure PollOutcome where
  client : WebSocketClient
  removed : Bool
  events : List WebSocketEvent
  sent : List (List Nat)
deriving DecidableEq, Repr

/-- Models the per-client body of `connection_handler`'s scan: closed
clients are only scheduled for removal; non-websocket clients are
skipped; otherwise the read result is dispatched — Text enqueues a
Message, Close marks the client closed and enqueues Disconnected, Ping
answers with an empty Pong, Pong and no-data do nothing, and a read error
marks the client closed and enqueues Disconnected. -/
def pollClient (client_id : Nat) (c : WebSocketClient)
    (r : Except String (Option WebSocketFrame)) : PollOutcome :=
  if c.is_closed then ⟨c, true, [], []⟩
  else if c.is_websocket then
    match r with
    | .ok (some (.text t)) => ⟨c, false, [.message client_id t], []⟩
    | .ok (some .close) =>
      ⟨{ c with is_closed := true }, true, [.disconnected client_id], []⟩
    | .ok (some (.ping _)) => ⟨c, false, [], [sendFrameBytes 10 []]⟩
    | .ok (some (.pong _)) => ⟨c, false, [], []⟩
    | .ok none => ⟨c, false, [], []⟩
    | .error _ =>
      ⟨{ c with is_closed := true }, true, [.disconnected client_id], []⟩
  else ⟨c, false, [], []⟩

/-- One scan of the registry by the polling loop, given the per-id read
results of this cycle: the registry with updated clients and the
`to_remove` ids deleted, plus the events enqueued in scan order. -/
def pollCycle (reg : Registry)
    (reads : Nat → Except String (Option WebSocketFrame)) :
    Registry × List WebSocketEvent :=
  ((reg.map (fun p => (p.1, pollClient p.1 p.2 (reads p.1)))).filterMap
     (fun q => if q.2.removed then none else some (q.1, q.2.client)),
   (reg.map (fun p => (pollClient p.1 p.2 (reads p.1)).events)).flatten)

/-- A client as registered right after a successful upgrade
(`is_websocket: true, is_closed: false`), on a socket that accepts
writes. -/
def freshClient : WebSocketClient := ⟨true, false, false⟩

/-- The server-side state the polling loop maintains: the registry and
the `next_client_id` counter (monotonically increasing, never reused). -/
structure ServerState where
  registry : Registry
  nextId : Nat

/-- The environment input of one polling cycle: whether a new connection
completes its upgrade this cycle, and the decode result each connected
socket yields. -/
structure CycleInput where
  newConn : Bool
  reads : Nat → Except String (Option WebSocketFrame)

/-- One cycle of `connection_handler`: a newly upgraded connection (if
any) is registered under the next fresh id with a `Connected` event, then
the registry is scanned. -/
def serverStep (s : ServerState) (inp : CycleInput) :
    ServerState × List WebSocketEvent :=
  let reg0 := if inp.newConn then s.registry ++ [(s.nextId, freshClient)] else s.registry
  let evs0 : List WebSocketEvent :=
    if inp.newConn then [.connected s.nextId] else []
  let nid := if inp.newConn then s.nextId + 1 else s.nextId
  (⟨(pollCycle reg0 inp.reads).1, nid⟩, evs0 ++ (pollCycle reg0 inp.reads).2)

/-- Run of the polling loop over a sequence of cycle inputs, collecting
every event pushed onto the queue in order. -/
def serverRun (s : ServerState) : List CycleInput → ServerState × List WebSocketEvent
  | [] => (s, [])
  | i :: is =>
    ((serverRun (serverStep s i).1 is).1,
     (serverStep s i).2 ++ (serverRun (serverStep s i).1 is).2)

/-- Models one check of `WebSocketServer::accept`: `queue.remove(0)` pops
and returns the oldest queued event; an empty queue makes the source
sleep and retry, represented as `none`. -/
def acceptPoll (queue : List WebSocketEvent) :
    Option (WebSocketEvent × List WebSocketEvent) :=
  match queue with
  | [] => none
  | e :: rest => some (e, rest)

/-- The per-connection events-never-out-of-order property of the event
queue: a `Disconnected` for an id is never followed by a later `Message`
for the same id. -/
def NoMsgAfterDisc (evs : List WebSocketEvent) : Prop :=
  ∀ (i j client_id : Nat) (t : List Nat), i < j →
    evs[i]? = some (.disconnected client_id) →
    evs[j]? ≠ some (.message client_id t)

/-- Lock-relevant actions of `broadcast` and `close_client`, in program
order: acquiring and releasing the `clients` mutex, a socket write to a
given id, and a registry removal. -/
inductive LockAction where
  | acquireClients
  | releaseClients
  | writeTo (client_id : Nat)
  | removeEntry (client_id : Nat)
deriving DecidableEq, Repr

/-- The lock/IO trace of `close_client`: lock the table, then (when the
id is present) remove the entry and write the Close frame, then
unlock. -/
def close_clientTrace (clients : Registry) (client_id : Nat) : List LockAction :=
  [.acquireClients] ++
  (match lookupClient clients client_id with
   | some _ => [.removeEntry client_id, .writeTo client_id]
   | none => []) ++
  [.releaseClients]

/-- The sweep-phase writes of `broadcast`, one per registered open
websocket connection, in registry order. -/
def broadcastSweepWrites (clients : Registry) : List LockAction :=
  clients.filterMap (fun p =>
    if p.2.is_websocket && !p.2.is_closed then some (LockAction.writeTo p.1) else none)

/-- The cleanup phase of `broadcast`: one `close_client` call per failed
id, on the registry as it evolves. -/
def broadcastCleanupTrace : Registry → List Nat → List LockAction
  | _, [] => []
  | cs, client_id :: ids =>
    close_clientTrace cs client_id ++
    broadcastCleanupTrace (close_client cs client_id).1 ids

/-- The lock/IO trace of `broadcast`: the table lock is taken, the sweep
writes happen, the lock is dropped, and then the failed connections are
closed one by one. -/
def broadcastTrace (clients : Registry) : List LockAction :=
  [.acquireClients] ++ broadcastSweepWrites clients ++ [.releaseClients] ++
  broadcastCleanupTrace clients (broadcastFailedIds clients)

/-- The ids written to while the table lock is held (lock depth tracked
from `d`), in trace order. -/
def writesWhileLocked : Nat → List LockAction → List Nat
  | _, [] => []
  | d, .acquireClients :: tr => writesWhileLocked (d + 1) tr
  | d, .releaseClients :: tr => writesWhileLocked (d - 1) tr
  | d, .writeTo client_id :: tr =>
    if d > 0 then client_id :: writesWhileLocked d tr else writesWhileLocked d tr
  | d, .removeEntry _ :: tr => writesWhileLocked d tr

/-- A small concrete registry used by witnesses: id 1 open websocket,
id 2 closed, id 3 open websocket whose writes fail, id 4 a plain HTTP
socket. -/
def sampleRegistry : Registry :=
  [(1, ⟨true, false, false⟩), (2, ⟨true, true, false⟩),
   (3, ⟨true, false, true⟩), (4, ⟨false, false, false⟩)]

lemma xorMask_length (mask : List Nat) : ∀ (i : Nat) (p : List Nat),
    (xorMask mask i p).length = p.length := by
  intro i p
  induction p generalizing i with
  | nil => rfl
  | cons b rest ih => simp [xorMask, ih]

lemma xorMask_xorMask (mask : List Nat) : ∀ (i : Nat) (p : List Nat),
    xorMask mask i (xorMask mask i p) = p := by
  intro i p
  induction p generalizing i with
  | nil => rfl
  | cons b rest ih =>
    simp only [xorMask, ih]
    rw [Nat.xor_assoc, Nat.xor_self, Nat.xor_zero]

lemma readExact_append {n : Nat} (xs ys : List Nat) (h : xs.length = n) :
    readExact n (xs ++ ys) = .ok (xs, ys) := by
  subst h
  simp [readExact, List.take_left, List.drop_left]

lemma readExact_exact {n : Nat} (xs : List Nat) (h : xs.length = n) :
    readExact n xs = .ok (xs, []) := by
  have := readExact_append xs [] h
  simpa using this

lemma readExact_cons_cons (a b : Nat) (s : List Nat) :
    readExact 2 (a :: b :: s) = .ok ([a, b], s) :=
  readExact_append [a, b] s rfl

lemma beBytes_length : ∀ (k n : Nat), (beBytes k n).length = k := by
  intro k
  induction k with
  | zero => intro n; rfl
  | succ k ih => intro n; simp [beBytes, ih]

lemma beVal_append_one (xs : List Nat) (b : Nat) :
    beVal (xs ++ [b]) = beVal xs * 256 + b := by
  simp [beVal, List.foldl_append]

lemma beVal_beBytes : ∀ (k n : Nat), n < 256 ^ k → beVal (beBytes k n) = n := by
  intro k
  induction k with
  | zero =>
    intro n h
    simp [beBytes, beVal]
    omega
  | succ k ih =>
    intro n h
    have hdiv : n / 256 < 256 ^ k := by
      rw [Nat.div_lt_iff_lt_mul (by omega)]
      calc n < 256 ^ (k + 1) := h
        _ = 256 ^ k * 256 := by rw [Nat.pow_succ]
    rw [beBytes, beVal_append_one, ih (n / 256) hdiv]
    omega

lemma masked_len_field : ∀ L, L < 128 → (128 ||| L) &&& 127 = L := by decide

lemma masked_opcode_field : ∀ op, op < 16 → (128 ||| op) &&& 15 = op := by decide

/-- Decoding the client-masked encoding of a supported frame, 1-byte
length tier. -/
lemma decode_mask_encode_tier1 (op : Nat) (hop : op = 1 ∨ op = 8 ∨ op = 9 ∨ op = 10)
    (p m : List Nat) (hm : m.length = 4) (h : p.length < 126) :
    tryReadWebsocketFrame (maskFrame m (sendFrameBytes op p)) =
      .ok (some (frameOfOpcode op p)) := by
  have hmask : maskFrame m (sendFrameBytes op p) =
      (128 ||| op) :: (128 ||| p.length) :: (m ++ xorMask m 0 p) := by
    simp only [sendFrameBytes, if_pos h, List.cons_append, List.nil_append, maskFrame]
    have h126 : p.length ≠ 126 := by omega
    have h127 : p.length ≠ 127 := by omega
    simp [h126, h127]
  rw [hmask]
  have hlen : (128 ||| p.length) &&& 127 = p.length :=
    masked_len_field p.length (by omega)
  simp only [tryReadWebsocketFrame, readExact_cons_cons, List.getD_cons_zero,
    List.getD_cons_succ, hlen]
  have h126 : ¬ (p.length = 126) := by omega
  have h127 : ¬ (p.length = 127) := by omega
  simp only [if_neg h126, if_neg h127, readExact_append m _ hm,
    readExact_exact _ (xorMask_length m 0 p)]
  have hbig : ¬ (p.length > 65536) := by omega
  simp only [if_neg hbig, xorMask_xorMask]
  rcases hop with rfl | rfl | rfl | rfl <;> simp [masked_opcode_field, frameOfOpcode]

lemma take_append_of_length {n : Nat} (xs ys : List Nat) (h : xs.length = n) :
    (xs ++ ys).take n = xs := by
  subst h; exact List.take_left xs ys

lemma drop_append_of_length {n : Nat} (xs ys : List Nat) (h : xs.length = n) :
    (xs ++ ys).drop n = ys := by
  subst h; exact List.drop_left xs ys

/-- Decoding the client-masked encoding of a supported frame, 2-byte
extended-length tier. -/
lemma decode_mask_encode_tier2 (op : Nat) (hop : op = 1 ∨ op = 8 ∨ op = 9 ∨ op = 10)
    (p m : List Nat) (hm : m.length = 4) (hlo : 126 ≤ p.length)
    (hhi : p.length ≤ 65535) :
    tryReadWebsocketFrame (maskFrame m (sendFrameBytes op p)) =
      .ok (some (frameOfOpcode op p)) := by
  have hmask : maskFrame m (sendFrameBytes op p) =
      (128 ||| op) :: (128 ||| 126) ::
        (beBytes 2 p.length ++ (m ++ xorMask m 0 p)) := by
    have hn : ¬ (p.length < 126) := by omega
    simp only [sendFrameBytes, if_neg hn, if_pos hhi, List.cons_append,
      List.nil_append, List.append_assoc, maskFrame, if_true, if_false,
      reduceIte]
    rw [take_append_of_length _ _ (beBytes_length 2 p.length),
      drop_append_of_length _ _ (beBytes_length 2 p.length)]
  rw [hmask]
  simp only [tryReadWebsocketFrame, readExact_cons_cons, List.getD_cons_zero,
    List.getD_cons_succ]
  have hlen : (128 ||| 126) &&& 127 = 126 := by decide
  rw [hlen]
  simp only [if_pos rfl, readExact_append _ _ (beBytes_length 2 p.length),
    beVal_beBytes 2 p.length (by omega), readExact_append m _ hm,
    readExact_exact _ (xorMask_length m 0 p), if_true]
  have hbig : ¬ (p.length > 65536) := by omega
  simp only [if_neg hbig, xorMask_xorMask]
  rcases hop with rfl | rfl | rfl | rfl <;> simp [masked_opcode_field, frameOfOpcode]

/-- Decoding the client-masked encoding of a supported frame, 8-byte
extended-length tier (only the boundary length 65536 is accepted by the
decoder). -/
lemma decode_mask_encode_tier3 (op : Nat) (hop : op = 1 ∨ op = 8 ∨ op = 9 ∨ op = 10)
    (p m : List Nat) (hm : m.length = 4) (hlo : 65535 < p.length)
    (hhi : p.length ≤ 65536) :
    tryReadWebsocketFrame (maskFrame m (sendFrameBytes op p)) =
      .ok (some (frameOfOpcode op p)) := by
  have hmask : maskFrame m (sendFrameBytes op p) =
      (128 ||| op) :: (128 ||| 127) ::
        (beBytes 8 p.length ++ (m ++ xorMask m 0 p)) := by
    have hn : ¬ (p.length < 126) := by omega
    have hn2 : ¬ (p.length ≤ 65535) := by omega
    simp only [sendFrameBytes, if_neg hn, if_neg hn2, List.cons_append,
      List.nil_append, List.append_assoc, maskFrame, if_true, if_false,
      reduceIte]
    norm_num
    rw [take_append_of_length _ _ (beBytes_length 8 p.length),
      drop_append_of_length _ _ (beBytes_length 8 p.length)]
  rw [hmask]
  simp only [tryReadWebsocketFrame, readExact_cons_cons, List.getD_cons_zero,
    List.getD_cons_succ]
  have hlen : (128 ||| 127) &&& 127 = 127 := by decide
  rw [hlen]
  have h126 : (127 : Nat) ≠ 126 := by decide
  simp only [if_neg h126, if_pos rfl, readExact_append _ _ (beBytes_length 8 p.length),
    beVal_beBytes 8 p.length (by omega), readExact_append m _ hm,
    readExact_exact _ (xorMask_length m 0 p), if_true, if_false]
  have hbig : ¬ (p.length > 65536) := by omega
  simp only [if_neg hbig, xorMask_xorMask]
  rcases hop with rfl | rfl | rfl | rfl <;> simp [masked_opcode_field, frameOfOpcode]

/-- Decoding the client-masked encoding of any supported frame with
payload length at most 65536. -/
lemma decode_mask_encode (op : Nat) (hop : op = 1 ∨ op = 8 ∨ op = 9 ∨ op = 10)
    (p m : List Nat) (hm : m.length = 4) (hlen : p.length ≤ 65536) :
    tryReadWebsocketFrame (maskFrame m (sendFrameBytes op p)) =
      .ok (some (frameOfOpcode op p)) := by
  by_cases h1 : p.length < 126
  · exact decode_mask_encode_tier1 op hop p m hm h1
  · by_cases h2 : p.length ≤ 65535
    · exact decode_mask_encode_tier2 op hop p m hm (by omega) h2
    · exact decode_mask_encode_tier3 op hop p m hm (by omega) hlen

/-- Decode mirror, direct-length tier: a masked text frame whose second
header byte declares `n ≤ 125` directly is read with payload length `n`. -/
lemma decode_direct_len (n : Nat) (m q rest : List Nat) (hm : m.length = 4)
    (hq : q.length = n) (hn : n ≤ 125) :
    tryReadWebsocketFrame (129 :: (128 ||| n) :: (m ++ (q ++ rest))) =
      .ok (some (.text (utf8Lossy (xorMask m 0 q)))) := by
  have hlen : (128 ||| n) &&& 127 = n := masked_len_field n (by omega)
  simp only [tryReadWebsocketFrame, readExact_cons_cons, List.getD_cons_zero,
    List.getD_cons_succ, hlen]
  have h126 : ¬ (n = 126) := by omega
  have h127 : ¬ (n = 127) := by omega
  simp only [if_neg h126, if_neg h127, readExact_append m _ hm,
    readExact_append q rest hq]
  have hbig : ¬ (n > 65536) := by omega
  simp only [if_neg hbig]

/-- Decode mirror, 2-byte extended tier: a masked text frame declaring
length 126 reads the next two bytes as a big-endian 16-bit length. -/
lemma decode_ext2_len (n : Nat) (m q rest : List Nat) (hm : m.length = 4)
    (hq : q.length = n) (hn : n ≤ 65535) :
    tryReadWebsocketFrame (129 :: 254 :: (beBytes 2 n ++ (m ++ (q ++ rest)))) =
      .ok (some (.text (utf8Lossy (xorMask m 0 q)))) := by
  have hlen : (254 : Nat) &&& 127 = 126 := by decide
  simp only [tryReadWebsocketFrame, readExact_cons_cons, List.getD_cons_zero,
    List.getD_cons_succ, hlen]
  simp only [if_pos rfl, readExact_append _ _ (beBytes_length 2 n),
    beVal_beBytes 2 n (by omega), readExact_append m _ hm,
    readExact_append q rest hq, if_true]
  have hbig : ¬ (n > 65536) := by omega
  simp only [if_neg hbig]

/-- Decode mirror, 8-byte extended tier: a masked text frame declaring
length 127 reads the next eight bytes as a big-endian 64-bit length; any
declared value up to the 65536 guard is accepted. -/
lemma decode_ext8_len (n : Nat) (m q rest : List Nat) (hm : m.length = 4)
    (hq : q.length = n) (hn : n ≤ 65536) :
    tryReadWebsocketFrame (129 :: 255 :: (beBytes 8 n ++ (m ++ (q ++ rest)))) =
      .ok (some (.text (utf8Lossy (xorMask m 0 q)))) := by
  have hlen : (255 : Nat) &&& 127 = 127 := by decide
  simp only [tryReadWebsocketFrame, readExact_cons_cons, List.getD_cons_zero,
    List.getD_cons_succ, hlen]
  have h126 : (127 : Nat) ≠ 126 := by decide
  simp only [if_neg h126, if_pos rfl, readExact_append _ _ (beBytes_length 8 n),
    beVal_beBytes 8 n (by omega), readExact_append m _ hm,
    readExact_append q rest hq, if_true, if_false]
  have hbig : ¬ (n > 65536) := by omega
  simp only [if_neg hbig]

/-- Any frame whose declared 64-bit payload length exceeds 65536 is
rejected with `Payload too large`, after the mask has been read. -/
lemma decode_declared_too_large (b0 b1 : Nat) (lb m rest : List Nat)
    (hb1 : b1 &&& 127 = 127) (hlb : lb.length = 8) (hv : beVal lb > 65536)
    (hm : m.length = 4) :
    tryReadWebsocketFrame (b0 :: b1 :: (lb ++ (m ++ rest))) =
      .error "Payload too large" := by
  simp only [tryReadWebsocketFrame, readExact_cons_cons, List.getD_cons_zero,
    List.getD_cons_succ, hb1]
  have h126 : (127 : Nat) ≠ 126 := by decide
  simp only [if_neg h126, if_pos rfl, readExact_append lb _ hlb,
    readExact_append m rest hm, if_true, if_false]
  simp only [if_pos hv]

/-- A byte list whose entries are bytes has big-endian value below
`256 ^ length`; in particular the 2-byte extended form can never declare
a length above 65535. -/
lemma beVal_lt (bs : List Nat) (h : ∀ b ∈ bs, b < 256) :
    beVal bs < 256 ^ bs.length := by
  induction bs using List.reverseRecOn with
  | nil => simp [beVal]
  | append_singleton xs b ih =>
    have hb : b < 256 := h b (by simp)
    have hxs : beVal xs < 256 ^ xs.length := ih (fun c hc => h c (by simp [hc]))
    rw [beVal_append_one]
    calc beVal xs * 256 + b < (beVal xs + 1) * 256 := by omega
      _ ≤ 256 ^ xs.length * 256 := by
          have : beVal xs + 1 ≤ 256 ^ xs.length := hxs
          exact Nat.mul_le_mul_right 256 this
      _ = 256 ^ (xs ++ [b]).length := by
          simp [Nat.pow_succ]

/-- Claim C1, counterexample.  The claim states that decoding the masked
encoding recovers the original payload for every opcode in
{Text, Close, Ping, Pong}.  For the Close opcode this is false: the
decoder returns the payload-free `WebSocketFrame::Close`, so the two
distinct one-byte payloads 0 and 42 produce identical decode results and
the original payload cannot be recovered. -/
theorem c1_close_payload_counterexample :
    tryReadWebsocketFrame (maskFrame [1, 2, 3, 4] (sendFrameBytes 8 [0])) =
      tryReadWebsocketFrame (maskFrame [1, 2, 3, 4] (sendFrameBytes 8 [42])) ∧
    tryReadWebsocketFrame (maskFrame [1, 2, 3, 4] (sendFrameBytes 8 [0])) =
      .ok (some .close) ∧
    ([0] : List Nat) ≠ [42] := by
  refine ⟨by decide, by decide, by decide⟩

/-- Claim C1, amended.  For every opcode value in {Text = 1, Close = 8,
Ping = 9, Pong = 10} and every payload of length at most 65536 (valid
UTF-8 in the Text case, expressed as the lossy decoder fixing the bytes),
decoding the client-masked encoding succeeds and recovers the original
opcode; for Text, Ping and Pong it also recovers the original payload,
while a Close frame decodes to the payload-free Close value. -/
theorem c1_roundtrip_amended (op : Nat) (p m : List Nat)
    (hop : op = 1 ∨ op = 8 ∨ op = 9 ∨ op = 10) (hm : m.length = 4)
    (hlen : p.length ≤ 65536) (hutf : op = 1 → utf8Lossy p = p) :
    tryReadWebsocketFrame (maskFrame m (sendFrameBytes op p)) =
      .ok (some (frameOfOpcode op p)) ∧
    (op = 1 → frameOfOpcode op p = .text p) ∧
    (op = 8 → frameOfOpcode op p = .close) ∧
    (op = 9 → frameOfOpcode op p = .ping p) ∧
    (op = 10 → frameOfOpcode op p = .pong p) := by
  refine ⟨decode_mask_encode op hop p m hm hlen, ?_, ?_, ?_, ?_⟩
  · rintro rfl; simp [frameOfOpcode, hutf rfl]
  · rintro rfl; simp [frameOfOpcode]
  · rintro rfl; simp [frameOfOpcode]
  · rintro rfl; simp [frameOfOpcode]

/-- Witness for C1 (amended): a concrete Text frame with payload "hi". -/
theorem c1_roundtrip_amended_witness :
    tryReadWebsocketFrame (maskFrame [1, 2, 3, 4] (sendFrameBytes 1 [104, 105])) =
      .ok (some (frameOfOpcode 1 [104, 105])) ∧
    frameOfOpcode 1 [104, 105] = .text [104, 105] := by
  have h := c1_roundtrip_amended 1 [104, 105] [1, 2, 3, 4]
    (Or.inl rfl) (by decide) (by decide) (fun _ => by decide)
  exact ⟨h.1, h.2.1 rfl⟩

/-- Claim C2: the encoder uses the 1-byte length form for payload lengths
at most 125, the 2-byte big-endian extended form for 126 through 65535,
and the 8-byte big-endian form from 65536 on; the decoder reads each
length form the same way; a declared 64-bit length strictly greater than
65536 fails with the `Payload too large` error while a declared length of
exactly 65536 is accepted; and the 2-byte form can never declare a length
above 65535. -/
theorem c2_length_encoding_boundaries :
    (∀ (op : Nat) (p : List Nat), p.length ≤ 125 →
      sendFrameBytes op p = [128 ||| op, p.length] ++ p) ∧
    (∀ (op : Nat) (p : List Nat), 126 ≤ p.length → p.length ≤ 65535 →
      sendFrameBytes op p = [128 ||| op, 126] ++ beBytes 2 p.length ++ p) ∧
    (∀ (op : Nat) (p : List Nat), 65536 ≤ p.length →
      sendFrameBytes op p = [128 ||| op, 127] ++ beBytes 8 p.length ++ p) ∧
    (∀ (n : Nat) (m q rest : List Nat), m.length = 4 → q.length = n → n ≤ 125 →
      tryReadWebsocketFrame (129 :: (128 ||| n) :: (m ++ (q ++ rest))) =
        .ok (some (.text (utf8Lossy (xorMask m 0 q))))) ∧
    (∀ (n : Nat) (m q rest : List Nat), m.length = 4 → q.length = n → n ≤ 65535 →
      tryReadWebsocketFrame (129 :: 254 :: (beBytes 2 n ++ (m ++ (q ++ rest)))) =
        .ok (some (.text (utf8Lossy (xorMask m 0 q))))) ∧
    (∀ (n : Nat) (m q rest : List Nat), m.length = 4 → q.length = n → n ≤ 65536 →
      tryReadWebsocketFrame (129 :: 255 :: (beBytes 8 n ++ (m ++ (q ++ rest)))) =
        .ok (some (.text (utf8Lossy (xorMask m 0 q))))) ∧
    (∀ (b0 b1 : Nat) (lb m rest : List Nat), b1 &&& 127 = 127 →
      lb.length = 8 → beVal lb > 65536 → m.length = 4 →
      tryReadWebsocketFrame (b0 :: b1 :: (lb ++ (m ++ rest))) =
        .error "Payload too large") ∧
    (∀ lb : List Nat, lb.length = 2 → (∀ b ∈ lb, b < 256) → beVal lb ≤ 65535) := by
  refine ⟨?_, ?_, ?_, decode_direct_len, decode_ext2_len, decode_ext8_len,
    decode_declared_too_large, ?_⟩
  · intro op p h
    have h126 : p.length < 126 := by omega
    simp [sendFrameBytes, if_pos h126]
  · intro op p h1 h2
    have hn : ¬ (p.length < 126) := by omega
    simp [sendFrameBytes, if_neg hn, if_pos h2]
  · intro op p h
    have hn : ¬ (p.length < 126) := by omega
    have hn2 : ¬ (p.length ≤ 65535) := by omega
    simp [sendFrameBytes, if_neg hn, if_neg hn2]
  · intro lb hlen hbytes
    have := beVal_lt lb hbytes
    rw [hlen] at this
    omega

/-- Witness for C2: each conjunct instantiated at a concrete input,
including both sides of the 65536 boundary. -/
theorem c2_length_encoding_boundaries_witness :
    sendFrameBytes 1 [7] = [128 ||| 1, 1] ++ [7] ∧
    sendFrameBytes 1 (List.replicate 126 0) =
      [128 ||| 1, 126] ++ beBytes 2 (List.replicate 126 (0 : Nat)).length ++
        List.replicate 126 0 ∧
    sendFrameBytes 1 (List.replicate 65536 0) =
      [128 ||| 1, 127] ++ beBytes 8 (List.replicate 65536 (0 : Nat)).length ++
        List.replicate 65536 0 ∧
    tryReadWebsocketFrame (129 :: (128 ||| 1) :: ([5, 6, 7, 8] ++ ([9] ++ []))) =
      .ok (some (.text (utf8Lossy (xorMask [5, 6, 7, 8] 0 [9])))) ∧
    tryReadWebsocketFrame (129 :: 254 :: (beBytes 2 1 ++ ([5, 6, 7, 8] ++ ([9] ++ [])))) =
      .ok (some (.text (utf8Lossy (xorMask [5, 6, 7, 8] 0 [9])))) ∧
    tryReadWebsocketFrame
        (129 :: 255 :: (beBytes 8 (List.replicate 65536 (0 : Nat)).length ++
          ([5, 6, 7, 8] ++ (List.replicate 65536 0 ++ [])))) =
      .ok (some (.text (utf8Lossy (xorMask [5, 6, 7, 8] 0 (List.replicate 65536 0))))) ∧
    tryReadWebsocketFrame (129 :: 255 :: (beBytes 8 65537 ++ ([5, 6, 7, 8] ++ []))) =
      .error "Payload too large" ∧
    beVal [255, 255] ≤ 65535 := by
  refine ⟨c2_length_encoding_boundaries.1 1 [7] (by decide),
    c2_length_encoding_boundaries.2.1 1 (List.replicate 126 0) (by rw [List.length_replicate]) (by rw [List.length_replicate]; omega),
    c2_length_encoding_boundaries.2.2.1 1 (List.replicate 65536 0) (by rw [List.length_replicate]),
    c2_length_encoding_boundaries.2.2.2.1 1 [5, 6, 7, 8] [9] [] (by decide) (by decide)
      (by decide),
    c2_length_encoding_boundaries.2.2.2.2.1 1 [5, 6, 7, 8] [9] [] (by decide) (by decide)
      (by decide),
    c2_length_encoding_boundaries.2.2.2.2.2.1 (List.replicate 65536 (0 : Nat)).length
      [5, 6, 7, 8] (List.replicate 65536 0) [] (by decide) rfl (by rw [List.length_replicate]),
    c2_length_encoding_boundaries.2.2.2.2.2.2.1 129 255 (beBytes 8 65537) [5, 6, 7, 8]
      [] (by decide) (by decide) (by decide) (by decide),
    c2_length_encoding_boundaries.2.2.2.2.2.2.2 [255, 255] (by decide) (by decide)⟩

set_option maxRecDepth 1000000 in
set_option maxHeartbeats 4000000 in
/-- Claim C3: the handshake negotiator computes the accept value as
base64 of the SHA-1 of the key concatenated with the fixed GUID; on the
RFC 6455 sample key the value is the canonical test vector; and the
response produced is exactly the literal 101 Switching Protocols response
containing that accept value. -/
theorem c3_handshake_determinism :
    (∀ key : List Nat, computeAcceptKey key = base64Encode (sha1 (key ++ wsMagic))) ∧
    computeAcceptKey (strBytes "dGhlIHNhbXBsZSBub25jZQ==") =
      strBytes "s3pPLMBiTxaQ9kYGzzhZRbK+xOo=" ∧
    (∀ key : List Nat, upgradeResponse (computeAcceptKey key) =
      strBytes "HTTP/1.1 101 Switching Protocols\r\nUpgrade: websocket\r\nConnection: Upgrade\r\nSec-WebSocket-Accept: " ++
        computeAcceptKey key ++ strBytes "\r\n\r\n") ∧
    handleWebsocketUpgrade sampleUpgradeRequest =
      .ok (strBytes "HTTP/1.1 101 Switching Protocols\r\nUpgrade: websocket\r\nConnection: Upgrade\r\nSec-WebSocket-Accept: s3pPLMBiTxaQ9kYGzzhZRbK+xOo=\r\n\r\n") := by
  refine ⟨fun key => rfl, by decide, fun key => rfl, by decide⟩

lemma lookupClient_cons (p : Nat × WebSocketClient) (cs : Registry) (j : Nat) :
    lookupClient (p :: cs) j = if p.1 = j then some p.2 else lookupClient cs j := by
  by_cases h : p.1 = j
  · rw [if_pos h]
    unfold lookupClient
    rw [List.find?_cons_of_pos _ (by simpa using h)]
    rfl
  · rw [if_neg h]
    unfold lookupClient
    rw [List.find?_cons_of_neg _ (by simpa using h)]

lemma lookup_filter_self (clients : Registry) (client_id : Nat) :
    lookupClient (clients.filter (fun p => p.1 != client_id)) client_id = none := by
  induction clients with
  | nil => rfl
  | cons p cs ih =>
    rw [List.filter_cons]
    by_cases h : p.1 = client_id
    · rw [if_neg (by simp [h])]
      exact ih
    · rw [if_pos (by simpa using h), lookupClient_cons, if_neg h]
      exact ih

lemma lookup_filter_ne (clients : Registry) (client_id j : Nat) (hj : j ≠ client_id) :
    lookupClient (clients.filter (fun p => p.1 != client_id)) j =
      lookupClient clients j := by
  induction clients with
  | nil => rfl
  | cons p cs ih =>
    rw [List.filter_cons]
    by_cases hid : p.1 = client_id
    · rw [if_neg (by simp [hid]), ih, lookupClient_cons,
        if_neg (by rw [hid]; exact fun hh => hj hh.symm)]
    · rw [if_pos (by simpa using hid), lookupClient_cons, lookupClient_cons]
      by_cases h2 : p.1 = j
      · rw [if_pos h2, if_pos h2]
      · rw [if_neg h2, if_neg h2]
        exact ih

lemma close_client_absent (clients : Registry) (client_id : Nat)
    (h : lookupClient clients client_id = none) :
    close_client clients client_id = (clients, []) := by
  simp [close_client, h]

lemma close_client_fst (clients : Registry) (client_id : Nat) :
    (close_client clients client_id).1 =
      clients.filter (fun p => p.1 != client_id) := by
  unfold close_client
  cases hl : lookupClient clients client_id with
  | some c => rfl
  | none =>
    have hf : clients.find? (fun p => p.1 == client_id) = none := by
      cases hfind : clients.find? (fun p => p.1 == client_id) with
      | none => rfl
      | some q => rw [lookupClient, hfind] at hl; simp at hl
    have hall := List.find?_eq_none.mp hf
    have heq : clients.filter (fun p => p.1 != client_id) = clients :=
      List.filter_eq_self.mpr (fun p hp => by simpa using hall p hp)
    rw [heq]

/-- Claim C4: `send` fails with the not-found error for an absent id,
the connection-closed error for a closed connection, surfaces a write
failure as an error, otherwise writes exactly one Text frame; in every
case, including a write failure, the registry (and hence every `isClosed`
flag) is returned unchanged — the connection is not implicitly closed. -/
theorem c4_send_errors (clients : Registry) (client_id : Nat) (message : List Nat) :
    (lookupClient clients client_id = none →
      send clients client_id message = (.error "Client not found", clients, [])) ∧
    (∀ c, lookupClient clients client_id = some c → c.is_closed = true →
      send clients client_id message = (.error "Connection closed", clients, [])) ∧
    (∀ c, lookupClient clients client_id = some c → c.is_closed = false →
      c.writeFails = true →
      send clients client_id message = (.error "Write error", clients, [])) ∧
    (∀ c, lookupClient clients client_id = some c → c.is_closed = false →
      c.writeFails = false →
      send clients client_id message = (.ok (), clients, [sendFrameBytes 1 message])) ∧
    (send clients client_id message).2.1 = clients := by
  refine ⟨?_, ?_, ?_, ?_, ?_⟩
  · intro h; simp [send, h]
  · intro c h hc; simp [send, h, hc]
  · intro c h hc hw; simp [send, h, hc, hw]
  · intro c h hc hw; simp [send, h, hc, hw]
  · unfold send
    cases h : lookupClient clients client_id with
    | none => rfl
    | some c => by_cases hc : c.is_closed <;> by_cases hw : c.writeFails <;> simp [hc, hw]

/-- Witness for C4 on the sample registry: unknown id, closed id, failing
id, healthy id. -/
theorem c4_send_errors_witness :
    send sampleRegistry 99 [120] = (.error "Client not found", sampleRegistry, []) ∧
    send sampleRegistry 2 [120] = (.error "Connection closed", sampleRegistry, []) ∧
    send sampleRegistry 3 [120] = (.error "Write error", sampleRegistry, []) ∧
    send sampleRegistry 1 [120] = (.ok (), sampleRegistry, [sendFrameBytes 1 [120]]) :=
  ⟨(c4_send_errors sampleRegistry 99 [120]).1 (by decide),
   (c4_send_errors sampleRegistry 2 [120]).2.1 ⟨true, true, false⟩ (by decide) rfl,
   (c4_send_errors sampleRegistry 3 [120]).2.2.1 ⟨true, false, true⟩ (by decide) rfl rfl,
   (c4_send_errors sampleRegistry 1 [120]).2.2.2.1 ⟨true, false, false⟩ (by decide) rfl rfl⟩

/-- Claim C6, counterexample.  The claim states that whenever a
connection enters the closing state a best-effort Close frame is sent
outward on its socket.  When the polling loop receives a Close frame from
an open websocket client, it sets `is_closed` and enqueues Disconnected
(the connection enters Closing) but writes nothing outward — no Close
frame is sent. -/
theorem c6_close_frame_counterexample :
    (pollClient 1 freshClient (.ok (some .close))).client.is_closed = true ∧
    (pollClient 1 freshClient (.ok (some .close))).events = [.disconnected 1] ∧
    (pollClient 1 freshClient (.ok (some .close))).sent = [] := by decide

/-- Claim C6, amended.  On a received Close frame or a read error the
polling loop sets `isClosed`, schedules removal and enqueues
Disconnected, but sends no Close frame outward; an explicit
`closeClient` on a present id removes the registry entry and best-effort
sends a Close frame, without touching any `isClosed` flag (the entry is
gone). -/
theorem c6_closing_amended (client_id : Nat) (c : WebSocketClient)
    (hws : c.is_websocket = true) (hopen : c.is_closed = false) :
    pollClient client_id c (.ok (some .close)) =
      ⟨{ c with is_closed := true }, true, [.disconnected client_id], []⟩ ∧
    (∀ e, pollClient client_id c (.error e) =
      ⟨{ c with is_closed := true }, true, [.disconnected client_id], []⟩) ∧
    (∀ clients : Registry, lookupClient clients client_id ≠ none →
      close_client clients client_id =
        (clients.filter (fun p => p.1 != client_id), [sendFrameBytes 8 []])) := by
  refine ⟨by simp [pollClient, hws, hopen], fun e => by simp [pollClient, hws, hopen], ?_⟩
  intro clients h
  unfold close_client
  cases hl : lookupClient clients client_id with
  | none => exact absurd hl h
  | some c2 => rfl

/-- Witness for C6 (amended): a fresh open client receiving Close, and a
`closeClient` on the present id 1 of the sample registry. -/
theorem c6_closing_amended_witness :
    pollClient 1 freshClient (.ok (some .close)) =
      ⟨{ freshClient with is_closed := true }, true, [.disconnected 1], []⟩ ∧
    close_client sampleRegistry 1 =
      (sampleRegistry.filter (fun p => p.1 != 1), [sendFrameBytes 8 []]) :=
  ⟨(c6_closing_amended 1 freshClient rfl rfl).1,
   (c6_closing_amended 1 freshClient rfl rfl).2.2 sampleRegistry (by decide)⟩

/-- Claim C8: `closeClient` is idempotent at the interface — the first
call on a present id removes the entry and best-effort sends a Close
frame; a second call (or a call on an id never registered) is a silent
no-op that sends nothing, and every other id's registry entry is left
exactly as it was. -/
theorem c8_close_client_idempotent (clients : Registry) (client_id : Nat) :
    (lookupClient clients client_id ≠ none →
      close_client clients client_id =
        (clients.filter (fun p => p.1 != client_id), [sendFrameBytes 8 []])) ∧
    (lookupClient clients client_id = none →
      close_client clients client_id = (clients, [])) ∧
    close_client (close_client clients client_id).1 client_id =
      ((close_client clients client_id).1, []) ∧
    (∀ j, j ≠ client_id →
      lookupClient (close_client clients client_id).1 j = lookupClient clients j) := by
  refine ⟨?_, ?_, ?_, ?_⟩
  · intro h
    unfold close_client
    cases hl : lookupClient clients client_id with
    | none => exact absurd hl h
    | some c2 => rfl
  · intro h; exact close_client_absent clients client_id h
  · have h2 : lookupClient (close_client clients client_id).1 client_id = none := by
      rw [close_client_fst]
      exact lookup_filter_self clients client_id
    exact close_client_absent _ client_id h2
  · intro j hj
    rw [close_client_fst]
    exact lookup_filter_ne clients client_id j hj

/-- Witness for C8 on the sample registry: close id 1 twice, then check
id 2 is untouched. -/
theorem c8_close_client_idempotent_witness :
    close_client sampleRegistry 1 =
      (sampleRegistry.filter (fun p => p.1 != 1), [sendFrameBytes 8 []]) ∧
    close_client (close_client sampleRegistry 1).1 1 =
      ((close_client sampleRegistry 1).1, []) ∧
    lookupClient (close_client sampleRegistry 1).1 2 = lookupClient sampleRegistry 2 :=
  ⟨(c8_close_client_idempotent sampleRegistry 1).1 (by decide),
   (c8_close_client_idempotent sampleRegistry 1).2.2.1,
   (c8_close_client_idempotent sampleRegistry 1).2.2.2 2 (by decide)⟩

/-- Claim C10: the automatic Pong reply the polling loop sends for a
received Ping carries an empty payload regardless of the Ping's payload —
the single frame written is the two header bytes of an empty Pong. -/
theorem c10_ping_pong_empty (client_id : Nat) (c : WebSocketClient) (p : List Nat)
    (hws : c.is_websocket = true) (hopen : c.is_closed = false) :
    pollClient client_id c (.ok (some (.ping p))) =
      ⟨c, false, [], [sendFrameBytes 10 []]⟩ ∧
    sendFrameBytes 10 [] = [128 ||| 10, 0] := by
  exact ⟨by simp [pollClient, hws, hopen], rfl⟩

/-- Witness for C10: a fresh client pinged with a non-empty payload. -/
theorem c10_ping_pong_empty_witness :
    pollClient 7 freshClient (.ok (some (.ping [1, 2, 3]))) =
      ⟨freshClient, false, [], [sendFrameBytes 10 []]⟩ :=
  (c10_ping_pong_empty 7 freshClient [1, 2, 3] rfl rfl).1

lemma writesWhileLocked_sweep (clients : Registry) (d : Nat) (hd : 0 < d)
    (tr : List LockAction) :
    writesWhileLocked d (broadcastSweepWrites clients ++ tr) =
      clients.filterMap (fun p =>
        if p.2.is_websocket && !p.2.is_closed then some p.1 else none) ++
        writesWhileLocked d tr := by
  induction clients with
  | nil => rfl
  | cons p cs ih =>
    by_cases h : (p.2.is_websocket && !p.2.is_closed) = true
    · simp only [broadcastSweepWrites, List.filterMap_cons, h, if_true,
        List.cons_append, writesWhileLocked, if_pos hd] at ih ⊢
      rw [ih]
    · rw [Bool.not_eq_true] at h
      simp only [broadcastSweepWrites, List.filterMap_cons, h, Bool.false_eq_true,
        if_false, List.cons_append] at ih ⊢
      rw [ih]

/-- Claim C9, counterexample.  The claim states that `broadcast` releases
the connection-table lock before performing any socket writes, so that no
write happens while the lock is held.  On the sample registry the
broadcast trace performs both sweep writes (ids 1 and 3) between
acquiring and releasing the table lock, and the cleanup Close-frame write
to id 3 is again performed under the lock. -/
theorem c9_lock_counterexample :
    writesWhileLocked 0 (broadcastTrace sampleRegistry) = [1, 3, 3] ∧
    writesWhileLocked 0 (broadcastTrace sampleRegistry) ≠ [] := by decide

/-- Claim C9, amended.  `broadcast` acquires the table lock, performs
every sweep write while holding it, releases it only after the sweep, and
then closes each failed connection via `close_client`, which re-acquires
the lock per removal and also writes its Close frame while holding it: in
the sweep section every registered open websocket connection is written
to under the lock, and each cleanup call writes under the lock exactly
when its id is still present. -/
theorem c9_lock_amended (clients : Registry) :
    broadcastTrace clients =
      [.acquireClients] ++ broadcastSweepWrites clients ++ [.releaseClients] ++
        broadcastCleanupTrace clients (broadcastFailedIds clients) ∧
    writesWhileLocked 0
        ([.acquireClients] ++ broadcastSweepWrites clients ++ [.releaseClients]) =
      clients.filterMap (fun p =>
        if p.2.is_websocket && !p.2.is_closed then some p.1 else none) ∧
    (∀ (cs : Registry) (client_id : Nat),
      writesWhileLocked 0 (close_clientTrace cs client_id) =
        match lookupClient cs client_id with
        | some _ => [client_id]
        | none => []) := by
  refine ⟨rfl, ?_, ?_⟩
  · rw [List.cons_append]
    show writesWhileLocked 1 (broadcastSweepWrites clients ++ [.releaseClients]) = _
    rw [writesWhileLocked_sweep clients 1 (by omega)]
    simp [writesWhileLocked]
  · intro cs client_id
    unfold close_clientTrace
    cases h : lookupClient cs client_id with
    | some c => rfl
    | none => rfl

lemma foldl_close_client (ids : List Nat) (clients : Registry) :
    ids.foldl (fun cs client_id => (close_client cs client_id).1) clients =
      clients.filter (fun p => !ids.contains p.1) := by
  induction ids generalizing clients with
  | nil => simp
  | cons id ids ih =>
    rw [List.foldl_cons, ih, close_client_fst, List.filter_filter]
    apply List.filter_congr
    intro p hp
    by_cases h : p.1 = id
    · simp [h]
    · by_cases h2 : p.1 ∈ ids <;> simp [h, h2]

lemma lookup_of_mem_nodup (clients : Registry) (client_id : Nat) (c : WebSocketClient)
    (hmem : (client_id, c) ∈ clients)
    (hnd : (clients.map (fun p => p.1)).Nodup) :
    lookupClient clients client_id = some c := by
  induction clients with
  | nil => simp at hmem
  | cons p cs ih =>
    rw [List.map_cons, List.nodup_cons] at hnd
    rcases List.mem_cons.mp hmem with h | h
    · rw [← h, lookupClient_cons, if_pos rfl]
    · have hk : p.1 ≠ client_id := by
        intro he
        exact hnd.1 (he ▸ (List.mem_map.mpr ⟨(client_id, c), h, rfl⟩))
      rw [lookupClient_cons, if_neg hk]
      exact ih h hnd.2

lemma mem_broadcastFailedIds (clients : Registry) (client_id : Nat)
    (hnd : (clients.map (fun p => p.1)).Nodup) :
    client_id ∈ broadcastFailedIds clients ↔
      ∃ c, lookupClient clients client_id = some c ∧
        (c.is_websocket && !c.is_closed && c.writeFails) = true := by
  constructor
  · intro h
    rcases List.mem_filterMap.mp h with ⟨p, hp, hf⟩
    by_cases hc : (p.2.is_websocket && !p.2.is_closed && p.2.writeFails) = true
    · rw [if_pos hc] at hf
      cases hf
      exact ⟨p.2, lookup_of_mem_nodup clients p.1 p.2 hp hnd, hc⟩
    · rw [Bool.not_eq_true] at hc
      rw [hc] at hf
      simp at hf
  · rintro ⟨c, hl, hc⟩
    have hfind := hl
    unfold lookupClient at hfind
    cases hq : clients.find? (fun p => p.1 == client_id) with
    | none => rw [hq] at hfind; simp at hfind
    | some q =>
      rw [hq] at hfind
      have hq2 : q.2 = c := by simpa using hfind
      have hqmem := List.mem_of_find?_eq_some hq
      have hqkey : q.1 = client_id := by simpa using List.find?_some hq
      apply List.mem_filterMap.mpr
      refine ⟨q, hqmem, ?_⟩
      rw [hq2, if_pos hc, hqkey]

lemma lookup_filter_key (clients : Registry) (f : Nat → Bool) (client_id : Nat) :
    lookupClient (clients.filter (fun p => f p.1)) client_id =
      if f client_id then lookupClient clients client_id else none := by
  induction clients with
  | nil => cases h : f client_id <;> simp [lookupClient, h]
  | cons p cs ih =>
    rw [List.filter_cons]
    by_cases hf : f p.1 = true
    · rw [if_pos hf, lookupClient_cons]
      by_cases hk : p.1 = client_id
      · have hfc : f client_id = true := hk ▸ hf
        rw [if_pos hk]
        simp [hfc, lookupClient_cons, hk]
      · rw [if_neg hk, ih]
        by_cases hfc : f client_id = true <;>
          simp [hfc, lookupClient_cons, hk]
    · rw [Bool.not_eq_true] at hf
      rw [hf]
      simp only [Bool.false_eq_true, if_false]
      rw [ih]
      by_cases hk : p.1 = client_id
      · rw [← hk, hf]
        simp
      · by_cases hfc : f client_id = true <;> simp [hfc, lookupClient_cons, hk]

lemma filter_filterMap_length (clients : Registry)
    (cond : Nat × WebSocketClient → Bool) :
    (clients.filter (fun p => !cond p)).length +
      (clients.filterMap (fun p => if cond p then some p.1 else none)).length =
      clients.length := by
  induction clients with
  | nil => rfl
  | cons p cs ih =>
    rw [List.filter_cons, List.filterMap_cons]
    cases h : cond p with
    | true =>
      simp only [h, Bool.not_true, Bool.false_eq_true, if_false, if_true,
        List.length_cons]
      omega
    | false =>
      simp only [h, Bool.not_false, Bool.false_eq_true, if_false, if_true,
        List.length_cons]
      omega

lemma lookup_filter_not_contains (clients : Registry) (ids : List Nat)
    (client_id : Nat) :
    lookupClient (clients.filter (fun p => !ids.contains p.1)) client_id =
      if ids.contains client_id then none else lookupClient clients client_id := by
  have h := lookup_filter_key clients (fun k => !ids.contains k) client_id
  cases hc : ids.contains client_id with
  | false =>
    have hm : client_id ∉ ids := by simpa using hc
    simp [hc] at h ⊢
    simp [hm] at h
    exact h
  | true =>
    have hm : client_id ∈ ids := by simpa using hc
    simp [hc] at h ⊢
    simp [hm] at h
    exact h

lemma mem_failed_of_entry (clients : Registry) (p : Nat × WebSocketClient)
    (hp : p ∈ clients) (hnd : (clients.map (fun q => q.1)).Nodup) :
    p.1 ∈ broadcastFailedIds clients ↔
      (p.2.is_websocket && !p.2.is_closed && p.2.writeFails) = true := by
  rw [mem_broadcastFailedIds clients p.1 hnd]
  constructor
  · rintro ⟨c, hl, hc⟩
    have h2 := lookup_of_mem_nodup clients p.1 p.2 hp hnd
    rw [h2] at hl
    cases hl
    exact hc
  · intro hc
    exact ⟨p.2, lookup_of_mem_nodup clients p.1 p.2 hp hnd, hc⟩

/-- Claim C5: `broadcast` attempts a Text-frame write to every
registered, open websocket connection, always returns Ok, and — after
the write sweep completes — removes via `closeClient` exactly the
connections whose write failed: under the distinct-keys invariant of the
HashMap, the surviving registry is the original minus the failed entries,
the number of removals equals the number of failures, and every surviving
connection keeps its entry and remains reachable by a subsequent
`send`. -/
theorem c5_broadcast (clients : Registry) (message : List Nat)
    (hnd : (clients.map (fun p => p.1)).Nodup) :
    (broadcast clients message).1 = .ok () ∧
    (broadcast clients message).2.2 = clients.filterMap (fun p =>
      if p.2.is_websocket && !p.2.is_closed then some (p.1, sendFrameBytes 1 message)
      else none) ∧
    (broadcast clients message).2.1 = clients.filter (fun p =>
      !(p.2.is_websocket && !p.2.is_closed && p.2.writeFails)) ∧
    (broadcast clients message).2.1.length + (broadcastFailedIds clients).length =
      clients.length ∧
    (∀ client_id c, lookupClient clients client_id = some c →
      (c.is_websocket && !c.is_closed && c.writeFails) = true →
      lookupClient (broadcast clients message).2.1 client_id = none) ∧
    (∀ client_id c, lookupClient clients client_id = some c →
      (c.is_websocket && !c.is_closed && c.writeFails) = false →
      lookupClient (broadcast clients message).2.1 client_id = some c) ∧
    (∀ client_id c, lookupClient clients client_id = some c →
      c.is_websocket = true → c.is_closed = false → c.writeFails = false →
      (send (broadcast clients message).2.1 client_id message).1 = .ok ()) := by
  have hreg : (broadcast clients message).2.1 =
      clients.filter (fun p => !(broadcastFailedIds clients).contains p.1) :=
    foldl_close_client (broadcastFailedIds clients) clients
  have hcong : (broadcast clients message).2.1 = clients.filter (fun p =>
      !(p.2.is_websocket && !p.2.is_closed && p.2.writeFails)) := by
    rw [hreg]
    apply List.filter_congr
    intro p hp
    have hiff := mem_failed_of_entry clients p hp hnd
    by_cases hx : p.1 ∈ broadcastFailedIds clients
    · have hc := hiff.mp hx
      simp [hx, hc]
    · have hc : ¬ (p.2.is_websocket && !p.2.is_closed && p.2.writeFails) = true :=
        fun hc => hx (hiff.mpr hc)
      rw [Bool.not_eq_true] at hc
      simp [hx, hc]
  have hsome : ∀ client_id c, lookupClient clients client_id = some c →
      (c.is_websocket && !c.is_closed && c.writeFails) = false →
      lookupClient (broadcast clients message).2.1 client_id = some c := by
    intro client_id c hl hc
    rw [hreg, lookup_filter_not_contains]
    have hnotmem : client_id ∉ broadcastFailedIds clients := by
      intro hmem
      rcases (mem_broadcastFailedIds clients client_id hnd).mp hmem with ⟨c2, hl2, hc2⟩
      rw [hl] at hl2
      cases hl2
      rw [hc] at hc2
      cases hc2
    have hcont : (broadcastFailedIds clients).contains client_id = false := by
      by_contra hne
      rw [Bool.not_eq_false] at hne
      exact hnotmem (by simpa using hne)
    rw [hcont, if_neg (by simp), hl]
  refine ⟨rfl, rfl, hcong, ?_, ?_, hsome, ?_⟩
  · rw [hcong]
    exact filter_filterMap_length clients
      (fun p => p.2.is_websocket && !p.2.is_closed && p.2.writeFails)
  · intro client_id c hl hc
    rw [hreg, lookup_filter_not_contains]
    have hmem : client_id ∈ broadcastFailedIds clients :=
      (mem_broadcastFailedIds clients client_id hnd).mpr ⟨c, hl, hc⟩
    rw [if_pos (by simpa using hmem)]
  · intro client_id c hl hws hcl hwf
    have h2 := hsome client_id c hl (by rw [hws, hcl, hwf]; rfl)
    rw [send, h2]
    simp [hcl, hwf]

/-- Witness for C5 on the sample registry (ids 1 healthy, 2 closed,
3 failing, 4 non-websocket): one failure, three survivors, id 1 still
reachable. -/
theorem c5_broadcast_witness :
    (broadcast sampleRegistry [120]).1 = .ok () ∧
    (broadcast sampleRegistry [120]).2.1.length +
      (broadcastFailedIds sampleRegistry).length = sampleRegistry.length ∧
    lookupClient (broadcast sampleRegistry [120]).2.1 3 = none ∧
    lookupClient (broadcast sampleRegistry [120]).2.1 1 = some ⟨true, false, false⟩ ∧
    (send (broadcast sampleRegistry [120]).2.1 1 [120]).1 = .ok () := by
  have h := c5_broadcast sampleRegistry [120] (by decide)
  exact ⟨h.1, h.2.2.2.1,
    h.2.2.2.2.1 3 ⟨true, false, true⟩ (by decide) rfl,
    h.2.2.2.2.2.1 1 ⟨true, false, false⟩ (by decide) rfl,
    h.2.2.2.2.2.2 1 ⟨true, false, false⟩ (by decide) rfl rfl rfl⟩

lemma pollClient_events_shapes (client_id : Nat) (c : WebSocketClient)
    (r : Except String (Option WebSocketFrame)) :
    (pollClient client_id c r).events = [] ∨
    (∃ t, (pollClient client_id c r).events = [.message client_id t]) ∨
    ((pollClient client_id c r).events = [.disconnected client_id] ∧
      (pollClient client_id c r).removed = true) := by
  unfold pollClient
  by_cases hc : c.is_closed = true
  · simp [hc]
  · rw [Bool.not_eq_true] at hc
    by_cases hw : c.is_websocket = true
    · simp only [hc, hw, Bool.false_eq_true, if_false, if_true]
      match r with
      | .ok (some (.text t)) => right; left; exact ⟨t, rfl⟩
      | .ok (some .close) => right; right; exact ⟨rfl, rfl⟩
      | .ok (some (.ping p)) => left; rfl
      | .ok (some (.pong p)) => left; rfl
      | .ok none => left; rfl
      | .error e => right; right; exact ⟨rfl, rfl⟩
    · rw [Bool.not_eq_true] at hw
      simp [hc, hw]

lemma mem_pollCycle_events (reg : Registry)
    (reads : Nat → Except String (Option WebSocketFrame)) (e : WebSocketEvent)
    (he : e ∈ (pollCycle reg reads).2) :
    ∃ p, p ∈ reg ∧ e ∈ (pollClient p.1 p.2 (reads p.1)).events := by
  unfold pollCycle at he
  simp only at he
  rcases List.mem_flatten.mp he with ⟨l, hl, hel⟩
  rcases List.mem_map.mp hl with ⟨p, hp, rfl⟩
  exact ⟨p, hp, hel⟩

lemma message_mem_keys (reg : Registry)
    (reads : Nat → Except String (Option WebSocketFrame)) (client_id : Nat)
    (t : List Nat) (h : WebSocketEvent.message client_id t ∈ (pollCycle reg reads).2) :
    client_id ∈ reg.map (fun p => p.1) := by
  rcases mem_pollCycle_events reg reads _ h with ⟨p, hp, he⟩
  rcases pollClient_events_shapes p.1 p.2 (reads p.1) with hsh | ⟨t2, hsh⟩ | ⟨hsh, _⟩ <;>
    rw [hsh] at he <;> simp at he
  · rcases he with ⟨h1, h2⟩
    exact h1 ▸ List.mem_map.mpr ⟨p, hp, rfl⟩

lemma disc_mem_keys (reg : Registry)
    (reads : Nat → Except String (Option WebSocketFrame)) (client_id : Nat)
    (h : WebSocketEvent.disconnected client_id ∈ (pollCycle reg reads).2) :
    client_id ∈ reg.map (fun p => p.1) := by
  rcases mem_pollCycle_events reg reads _ h with ⟨p, hp, he⟩
  rcases pollClient_events_shapes p.1 p.2 (reads p.1) with hsh | ⟨t2, hsh⟩ | ⟨hsh, _⟩ <;>
    rw [hsh] at he <;> simp at he
  · exact he ▸ List.mem_map.mpr ⟨p, hp, rfl⟩

lemma keys_pollCycle_sublist (reg : Registry)
    (reads : Nat → Except String (Option WebSocketFrame)) :
    ((pollCycle reg reads).1.map (fun p => p.1)).Sublist (reg.map (fun p => p.1)) := by
  induction reg with
  | nil => simp [pollCycle]
  | cons p cs ih =>
    unfold pollCycle at ih ⊢
    simp only [List.map_cons, List.filterMap_cons]
    by_cases hr : (pollClient p.1 p.2 (reads p.1)).removed = true
    · rw [if_pos hr]
      exact (ih).cons p.1
    · rw [Bool.not_eq_true] at hr
      rw [hr]
      simp only [Bool.false_eq_true, if_false, List.map_cons]
      exact (ih).cons₂ p.1

lemma pollCycle_events_cons (p : Nat × WebSocketClient) (cs : Registry)
    (reads : Nat → Except String (Option WebSocketFrame)) :
    (pollCycle (p :: cs) reads).2 =
      (pollClient p.1 p.2 (reads p.1)).events ++ (pollCycle cs reads).2 := by
  unfold pollCycle
  simp [List.flatten]

lemma disc_notin_new (reg : Registry)
    (reads : Nat → Except String (Option WebSocketFrame)) (client_id : Nat)
    (hnd : (reg.map (fun p => p.1)).Nodup)
    (h : WebSocketEvent.disconnected client_id ∈ (pollCycle reg reads).2) :
    client_id ∉ (pollCycle reg reads).1.map (fun p => p.1) := by
  induction reg with
  | nil => simp [pollCycle] at h
  | cons p cs ih =>
    rw [List.map_cons, List.nodup_cons] at hnd
    rw [pollCycle_events_cons] at h
    have hnew : (pollCycle (p :: cs) reads).1 =
        (if (pollClient p.1 p.2 (reads p.1)).removed then []
         else [(p.1, (pollClient p.1 p.2 (reads p.1)).client)]) ++
          (pollCycle cs reads).1 := by
      unfold pollCycle
      simp only [List.map_cons, List.filterMap_cons]
      by_cases hr : (pollClient p.1 p.2 (reads p.1)).removed = true
      · rw [if_pos hr, if_pos hr]
        rfl
      · rw [Bool.not_eq_true] at hr
        rw [hr]
        simp
    rcases List.mem_append.mp h with hh | hh
    · -- the disconnect came from the head client
      rcases pollClient_events_shapes p.1 p.2 (reads p.1) with hsh | ⟨t2, hsh⟩ | ⟨hsh, hrem⟩ <;>
        rw [hsh] at hh <;> simp at hh
      subst hh
      rw [hnew, if_pos hrem]
      rw [List.nil_append]
      intro hmem
      have hsub := (keys_pollCycle_sublist cs reads).subset
      exact hnd.1 (hsub hmem)
    · -- the disconnect came from the tail
      have hkey := disc_mem_keys cs reads client_id hh
      have hne : p.1 ≠ client_id := fun he => hnd.1 (he ▸ hkey)
      rw [hnew]
      intro hmem
      rw [List.map_append, List.mem_append] at hmem
      rcases hmem with hm | hm
      · by_cases hr : (pollClient p.1 p.2 (reads p.1)).removed = true
        · rw [if_pos hr] at hm
          simp at hm
        · rw [Bool.not_eq_true] at hr
          rw [hr] at hm
          simp at hm
          exact hne hm.symm
      · exact ih hnd.2 hh hm

lemma no_msg_and_disc_same_cycle (reg : Registry)
    (reads : Nat → Except String (Option WebSocketFrame)) (client_id : Nat)
    (t : List Nat) (hnd : (reg.map (fun p => p.1)).Nodup)
    (hd : WebSocketEvent.disconnected client_id ∈ (pollCycle reg reads).2)
    (hm : WebSocketEvent.message client_id t ∈ (pollCycle reg reads).2) : False := by
  induction reg with
  | nil => simp [pollCycle] at hd
  | cons p cs ih =>
    rw [List.map_cons, List.nodup_cons] at hnd
    rw [pollCycle_events_cons] at hd hm
    rcases List.mem_append.mp hd with hdh | hdh <;>
      rcases List.mem_append.mp hm with hmh | hmh
    · -- both from the head client: impossible, its event list is a singleton
      rcases pollClient_events_shapes p.1 p.2 (reads p.1) with hsh | ⟨t2, hsh⟩ | ⟨hsh, _⟩ <;>
        rw [hsh] at hdh hmh <;> simp at hdh hmh
    · -- disconnect from head, message from tail
      rcases pollClient_events_shapes p.1 p.2 (reads p.1) with hsh | ⟨t2, hsh⟩ | ⟨hsh, _⟩ <;>
        rw [hsh] at hdh <;> simp at hdh
      subst hdh
      exact hnd.1 (message_mem_keys cs reads _ t hmh)
    · -- message from head, disconnect from tail
      rcases pollClient_events_shapes p.1 p.2 (reads p.1) with hsh | ⟨t2, hsh⟩ | ⟨hsh, _⟩ <;>
        rw [hsh] at hmh <;> simp at hmh
      rcases hmh with ⟨h1, h2⟩
      exact hnd.1 (h1 ▸ disc_mem_keys cs reads client_id hdh)
    · exact ih hnd.2 hdh hmh

lemma NoMsgAfterDisc_append (xs ys : List WebSocketEvent)
    (h1 : ∀ (client_id : Nat) (t : List Nat),
      WebSocketEvent.disconnected client_id ∈ xs →
      WebSocketEvent.message client_id t ∉ xs)
    (h2 : ∀ (client_id : Nat) (t : List Nat),
      WebSocketEvent.disconnected client_id ∈ xs →
      WebSocketEvent.message client_id t ∉ ys)
    (h3 : NoMsgAfterDisc ys) : NoMsgAfterDisc (xs ++ ys) := by
  intro i j client_id t hij hdi hmj
  by_cases hje : j < xs.length
  · have hie : i < xs.length := Nat.lt_trans hij hje
    rw [List.getElem?_append_left hie] at hdi
    rw [List.getElem?_append_left hje] at hmj
    exact h1 client_id t (List.getElem?_mem hdi) (List.getElem?_mem hmj)
  · have hje2 : xs.length ≤ j := by omega
    rw [List.getElem?_append_right hje2] at hmj
    by_cases hie : i < xs.length
    · rw [List.getElem?_append_left hie] at hdi
      exact h2 client_id t (List.getElem?_mem hdi) (List.getElem?_mem hmj)
    · have hie2 : xs.length ≤ i := by omega
      rw [List.getElem?_append_right hie2] at hdi
      exact h3 (i - xs.length) (j - xs.length) client_id t (by omega) hdi hmj

lemma step_core (reg0 : Registry)
    (reads : Nat → Except String (Option WebSocketFrame))
    (evs0 : List WebSocketEvent)
    (hevs0 : ∀ e ∈ evs0, ∃ k, e = WebSocketEvent.connected k)
    (hnd0 : (reg0.map (fun p => p.1)).Nodup) :
    (∀ (client_id : Nat) (t : List Nat),
      WebSocketEvent.message client_id t ∈ evs0 ++ (pollCycle reg0 reads).2 →
      client_id ∈ reg0.map (fun p => p.1)) ∧
    (∀ client_id : Nat,
      WebSocketEvent.disconnected client_id ∈ evs0 ++ (pollCycle reg0 reads).2 →
      client_id ∈ reg0.map (fun p => p.1) ∧
      client_id ∉ (pollCycle reg0 reads).1.map (fun p => p.1)) ∧
    (∀ (client_id : Nat) (t : List Nat),
      WebSocketEvent.disconnected client_id ∈ evs0 ++ (pollCycle reg0 reads).2 →
      WebSocketEvent.message client_id t ∉ evs0 ++ (pollCycle reg0 reads).2) := by
  have hmsg : ∀ (client_id : Nat) (t : List Nat),
      WebSocketEvent.message client_id t ∈ evs0 ++ (pollCycle reg0 reads).2 →
      WebSocketEvent.message client_id t ∈ (pollCycle reg0 reads).2 := by
    intro client_id t h
    rcases List.mem_append.mp h with h0 | h0
    · rcases hevs0 _ h0 with ⟨k, hk⟩
      cases hk
    · exact h0
  have hdis : ∀ client_id : Nat,
      WebSocketEvent.disconnected client_id ∈ evs0 ++ (pollCycle reg0 reads).2 →
      WebSocketEvent.disconnected client_id ∈ (pollCycle reg0 reads).2 := by
    intro client_id h
    rcases List.mem_append.mp h with h0 | h0
    · rcases hevs0 _ h0 with ⟨k, hk⟩
      cases hk
    · exact h0
  refine ⟨?_, ?_, ?_⟩
  · intro client_id t h
    exact message_mem_keys reg0 reads client_id t (hmsg client_id t h)
  · intro client_id h
    exact ⟨disc_mem_keys reg0 reads client_id (hdis client_id h),
      disc_notin_new reg0 reads client_id hnd0 (hdis client_id h)⟩
  · intro client_id t h hm
    exact no_msg_and_disc_same_cycle reg0 reads client_id t hnd0
      (hdis client_id h) (hmsg client_id t hm)

lemma serverStep_facts (s : ServerState) (inp : CycleInput)
    (hbound : ∀ client_id ∈ s.registry.map (fun p => p.1), client_id < s.nextId)
    (hnd : (s.registry.map (fun p => p.1)).Nodup) :
    (∀ client_id ∈ (serverStep s inp).1.registry.map (fun p => p.1),
       client_id < (serverStep s inp).1.nextId) ∧
    ((serverStep s inp).1.registry.map (fun p => p.1)).Nodup ∧
    s.nextId ≤ (serverStep s inp).1.nextId ∧
    (∀ (client_id : Nat) (t : List Nat),
      WebSocketEvent.message client_id t ∈ (serverStep s inp).2 →
      client_id ∈ s.registry.map (fun p => p.1) ∨ client_id = s.nextId) ∧
    (∀ client_id : Nat,
      WebSocketEvent.disconnected client_id ∈ (serverStep s inp).2 →
      client_id ∉ (serverStep s inp).1.registry.map (fun p => p.1)) ∧
    (∀ (client_id : Nat) (t : List Nat),
      WebSocketEvent.disconnected client_id ∈ (serverStep s inp).2 →
      WebSocketEvent.message client_id t ∉ (serverStep s inp).2) ∧
    (∀ client_id ∈ (serverStep s inp).1.registry.map (fun p => p.1),
      client_id ∈ s.registry.map (fun p => p.1) ∨ client_id = s.nextId) ∧
    (∀ client_id : Nat,
      WebSocketEvent.disconnected client_id ∈ (serverStep s inp).2 →
      client_id < (serverStep s inp).1.nextId) := by
  by_cases hnc : inp.newConn = true
  all_goals (
    first
    | (rw [Bool.not_eq_true] at hnc)
    | skip)
  all_goals (
    have hstep : serverStep s inp =
        (⟨(pollCycle (if inp.newConn then s.registry ++ [(s.nextId, freshClient)]
            else s.registry) inp.reads).1,
          if inp.newConn then s.nextId + 1 else s.nextId⟩,
         (if inp.newConn then [WebSocketEvent.connected s.nextId] else []) ++
           (pollCycle (if inp.newConn then s.registry ++ [(s.nextId, freshClient)]
             else s.registry) inp.reads).2) := rfl
    rw [hstep, hnc]
    simp only [if_true, Bool.false_eq_true, if_false])
  · -- a new connection is registered this cycle
    have hkeys0 : (s.registry ++ [(s.nextId, freshClient)]).map (fun p => p.1) =
        s.registry.map (fun p => p.1) ++ [s.nextId] := by
      rw [List.map_append]
      rfl
    have hnd0 : ((s.registry ++ [(s.nextId, freshClient)]).map (fun p => p.1)).Nodup := by
      rw [hkeys0, List.nodup_append]
      refine ⟨hnd, List.nodup_singleton s.nextId, ?_⟩
      intro a ha hb
      rw [List.mem_singleton] at hb
      exact absurd (hb ▸ hbound a ha) (Nat.lt_irrefl s.nextId)
    have hcore := step_core (s.registry ++ [(s.nextId, freshClient)]) inp.reads
      [WebSocketEvent.connected s.nextId]
      (fun e he => ⟨s.nextId, by simpa using he⟩) hnd0
    have hsub := (keys_pollCycle_sublist (s.registry ++ [(s.nextId, freshClient)])
      inp.reads).subset
    refine ⟨?_, ?_, ?_, ?_, ?_, ?_, ?_, ?_⟩
    · intro client_id hmem
      have h2 := hsub hmem
      rw [hkeys0, List.mem_append, List.mem_singleton] at h2
      rcases h2 with h2 | h2
      · exact Nat.lt_trans (hbound client_id h2) (Nat.lt_succ_self _)
      · exact h2 ▸ Nat.lt_succ_self _
    · exact (keys_pollCycle_sublist _ inp.reads).nodup hnd0
    · exact Nat.le_succ _
    · intro client_id t h
      have h2 := hcore.1 client_id t h
      rw [hkeys0, List.mem_append, List.mem_singleton] at h2
      exact h2
    · intro client_id h
      exact (hcore.2.1 client_id h).2
    · exact hcore.2.2
    · intro client_id hmem
      have h2 := hsub hmem
      rw [hkeys0, List.mem_append, List.mem_singleton] at h2
      exact h2
    · intro client_id h
      have h2 := (hcore.2.1 client_id h).1
      rw [hkeys0, List.mem_append, List.mem_singleton] at h2
      rcases h2 with h2 | h2
      · exact Nat.lt_trans (hbound client_id h2) (Nat.lt_succ_self _)
      · exact h2 ▸ Nat.lt_succ_self _
  · -- no new connection this cycle
    have hcore := step_core s.registry inp.reads [] (fun e he => by cases he) hnd
    have hsub := (keys_pollCycle_sublist s.registry inp.reads).subset
    refine ⟨?_, ?_, ?_, ?_, ?_, ?_, ?_, ?_⟩
    · intro client_id hmem
      exact hbound client_id (hsub hmem)
    · exact (keys_pollCycle_sublist _ inp.reads).nodup hnd
    · exact Nat.le_refl _
    · intro client_id t h
      exact Or.inl (hcore.1 client_id t (by simpa using h))
    · intro client_id h
      exact (hcore.2.1 client_id (by simpa using h)).2
    · intro client_id t h hm
      exact hcore.2.2 client_id t (by simpa using h) (by simpa using hm)
    · intro client_id hmem
      exact Or.inl (hsub hmem)
    · intro client_id h
      exact hbound client_id (hcore.2.1 client_id (by simpa using h)).1

lemma serverRun_cons (s : ServerState) (inp : CycleInput)
    (inputs : List CycleInput) :
    (serverRun s (inp :: inputs)).2 =
      (serverStep s inp).2 ++ (serverRun (serverStep s inp).1 inputs).2 := rfl

lemma serverRun_safe (inputs : List CycleInput) :
    ∀ (s : ServerState) (D : List Nat),
      (∀ client_id ∈ s.registry.map (fun p => p.1), client_id < s.nextId) →
      (s.registry.map (fun p => p.1)).Nodup →
      (∀ client_id ∈ D, client_id ∉ s.registry.map (fun p => p.1) ∧
        client_id < s.nextId) →
      (∀ (client_id : Nat) (t : List Nat), client_id ∈ D →
        WebSocketEvent.message client_id t ∉ (serverRun s inputs).2) ∧
      NoMsgAfterDisc (serverRun s inputs).2 := by
  induction inputs with
  | nil =>
    intro s D hbound hnd hD
    constructor
    · intro client_id t _ hin
      simp [serverRun] at hin
    · intro i j client_id t hij hdi _
      simp [serverRun] at hdi
  | cons inp inputs ih =>
    intro s D hbound hnd hD
    obtain ⟨hb1, hn1, hmono, hmsg, hdisc1, hexcl, hsubkeys, hdiscb⟩ :=
      serverStep_facts s inp hbound hnd
    have hDstep : ∀ client_id ∈ D,
        client_id ∉ (serverStep s inp).1.registry.map (fun p => p.1) ∧
        client_id < (serverStep s inp).1.nextId := by
      intro id hid
      rcases hD id hid with ⟨hnotin, hlt⟩
      constructor
      · intro hin
        rcases hsubkeys id hin with h | h
        · exact hnotin h
        · omega
      · omega
    have hD2 : ∀ client_id ∈ D ++ (serverStep s inp).2.filterMap
          (fun e => match e with
            | WebSocketEvent.disconnected k => some k
            | _ => none),
        client_id ∉ (serverStep s inp).1.registry.map (fun p => p.1) ∧
        client_id < (serverStep s inp).1.nextId := by
      intro id hid
      rcases List.mem_append.mp hid with hid | hid
      · exact hDstep id hid
      · rcases List.mem_filterMap.mp hid with ⟨e, he, hde⟩
        have hdm : WebSocketEvent.disconnected id ∈ (serverStep s inp).2 := by
          cases e <;> simp at hde
          exact hde ▸ he
        exact ⟨hdisc1 id hdm, hdiscb id hdm⟩
    have hIH := ih (serverStep s inp).1
      (D ++ (serverStep s inp).2.filterMap
        (fun e => match e with
          | WebSocketEvent.disconnected k => some k
          | _ => none)) hb1 hn1 hD2
    rw [serverRun_cons]
    constructor
    · intro client_id t hidD hin
      rcases List.mem_append.mp hin with hin | hin
      · rcases hmsg client_id t hin with h | h
        · exact (hD client_id hidD).1 h
        · rcases hD client_id hidD with ⟨_, hlt⟩
          omega
      · exact hIH.1 client_id t (List.mem_append.mpr (Or.inl hidD)) hin
    · apply NoMsgAfterDisc_append
      · intro client_id t hdm hmm
        exact hexcl client_id t hdm hmm
      · intro client_id t hdm
        apply hIH.1 client_id t
        apply List.mem_append.mpr
        right
        apply List.mem_filterMap.mpr
        exact ⟨WebSocketEvent.disconnected client_id, hdm, rfl⟩
      · exact hIH.2

/-- Claim C7: the event queue is FIFO — `accept` pops and returns the
oldest queued event, leaving the rest in order; each decoded frame
produces at most one event, tagged with its own connection id and
enqueued immediately, so a connection's events are appended in the order
its frames were decoded; and over every run of the polling loop from a
fresh server state, once a Disconnected event is emitted for an id no
later Message event for that id is ever emitted. -/
theorem c7_event_order :
    (∀ (e : WebSocketEvent) (rest : List WebSocketEvent),
      acceptPoll (e :: rest) = some (e, rest)) ∧
    (∀ (client_id : Nat) (c : WebSocketClient)
        (r : Except String (Option WebSocketFrame)),
      (pollClient client_id c r).events = [] ∨
      (∃ t, (pollClient client_id c r).events = [.message client_id t]) ∨
      (pollClient client_id c r).events = [.disconnected client_id]) ∧
    (∀ (inputs : List CycleInput) (n0 : Nat),
      NoMsgAfterDisc (serverRun ⟨[], n0⟩ inputs).2) := by
  refine ⟨fun e rest => rfl, ?_, ?_⟩
  · intro client_id c r
    rcases pollClient_events_shapes client_id c r with h | ⟨t, h⟩ | ⟨h, _⟩
    · exact Or.inl h
    · exact Or.inr (Or.inl ⟨t, h⟩)
    · exact Or.inr (Or.inr h)
  · intro inputs n0
    exact (serverRun_safe inputs ⟨[], n0⟩ [] (by simp) (by simp) (by simp)).2

/-- Witness for C7: a concrete queue pop, and a concrete three-cycle run
in which client 1 connects, sends a message, and then closes. -/
theorem c7_event_order_witness :
    acceptPoll [WebSocketEvent.connected 5, WebSocketEvent.message 5 [104]] =
      some (WebSocketEvent.connected 5, [WebSocketEvent.message 5 [104]]) ∧
    NoMsgAfterDisc (serverRun ⟨[], 1⟩
      [⟨true, fun _ => .ok (some (.text [104]))⟩,
       ⟨false, fun _ => .ok (some .close)⟩,
       ⟨false, fun _ => .ok (some (.text [105]))⟩]).2 :=
  ⟨c7_event_order.1 _ _, c7_event_order.2.2 _ 1⟩

end ChatServer
